import Mathlib

/-!
Shallow embedding of `src/wayback.py` (the unified wayback async scraper) and
theorems checking the specification's claims against it.

The embedding covers: the output schema and record construction
(`GLOBAL_COLUMNS`, `init_record`, the per-year parser wrappers and
`dispatch_parse`), the retrying HTTP `fetch` loop, the token-bucket
`RateLimiter`, the checkpoint persistence file operations, and the
worker / buffer-flush / checkpoint orchestration of `main`.

Modelling conventions: Python `None` is `Option.none`; record cell values are
`Option String` (the claims never depend on the precise value type);
timestamps and token counts are rationals; each durable file write is one
atomic transition of the orchestration model, except where a claim is about
what happens inside a single write (the checkpoint-persist model, which
exposes the truncate-then-write structure of `open(f, "w")` + `json.dump`).
The bodies of the per-year HTML extractors (pure BeautifulSoup code inside a
`try` block whose targets are fixed literal record keys) are abstracted as
the list of record assignments the `try` block performed before completing
or raising; everything around them is translated directly from the source.
-/

set_option maxRecDepth 40000

namespace Wayback

/-! ## Configuration constants (`src/wayback.py` lines 25-36) -/

def REQUESTS_PER_MIN : ℚ := 60

def SAVE_EVERY : Nat := 50

def CHECKPOINT_FILE : String := "wayback_unified_checkpoint.json"

def OUT_CSV : String := "ai_wayback_unified.csv"

/-! ## HTTP fetch with retry (`fetch`, lines 278-293)

One attempt of the loop body either yields an HTTP response with a status
code and a body, or raises an exception (timeout / network error), which the
source catches.  `fetch` runs `for attempt in range(1, 8)`: on status 200 it
returns the body; on status 429/502/503 it sleeps `1.8 ** attempt` and
retries; on any other status it returns `(None, f"HTTP {status}")`; on an
exception it records it in `last`, sleeps `1.8 ** attempt` and retries; when
the seven attempts are exhausted it returns `(None, str(last))`. -/

inductive Resp where
  | http (code : Nat) (body : String)
  | exc (msg : String)
deriving DecidableEq

/-- Result of `fetch`: the `(html, err)` pair returned by the source,
plus the number of attempts performed and the total back-off slept,
which the spec's claims quantify over. -/
structure FetchRes where
  body : Option String
  error : Option String
  attempts : Nat
  sleepTotal : ℚ
deriving DecidableEq

/-- The back-off base `1.8` of `1.8 ** attempt`. -/
def BASE : ℚ := 9 / 5

/-- Python `str` applied to the `last` variable: `str(None) = "None"`,
`str(e)` is the exception text. -/
def strOfLast : Option String → String
  | none => "None"
  | some m => m

/-- The status codes the source treats as transient: `r.status in (429, 502, 503)`. -/
def transientStatus (c : Nat) : Bool :=
  c == 429 || c == 502 || c == 503

/-- The retry loop of `fetch`, with `attempt` the 1-based loop counter and
`fuel` the number of remaining iterations (`range(1, 8)` gives 7 total). -/
def fetchFrom (responses : Nat → Resp) : Nat → Nat → Option String → ℚ → FetchRes
  | _, 0, last, slept => ⟨none, some (strOfLast last), 7, slept⟩
  | attempt, fuel + 1, last, slept =>
    match responses attempt with
    | .http code body =>
      if code == 200 then ⟨some body, none, attempt, slept⟩
      else if transientStatus code then
        fetchFrom responses (attempt + 1) fuel last (slept + BASE ^ attempt)
      else ⟨none, some ("HTTP " ++ toString code), attempt, slept⟩
    | .exc msg =>
      fetchFrom responses (attempt + 1) fuel (some msg) (slept + BASE ^ attempt)

def fetch (responses : Nat → Resp) : FetchRes :=
  fetchFrom responses 1 7 none 0

/-! ## Output schema (`COLUMNS_2023/2024/2025`, `GLOBAL_COLUMNS`, lines 41-185) -/

def COLUMNS_2025 : List String :=
  ["name", "link", "tool_link", "description", "use_case", "pricing_model",
   "paid_options_from", "billing_frequency", "refund_policy", "discount_label",
   "discount_value", "discount_code", "views", "saves", "author_date", "rating",
   "number_of_ratings", "number_of_comments", "versions_count", "socials",
   "socials_json", "socials_links_json", "socials_count", "author_name",
   "author_username", "author_profile_url", "author_bio", "author_socials_json",
   "author_socials_count", "versions", "pros_count", "cons_count", "pros",
   "cons", "pros_json", "cons_json", "also_searched", "also_searched_json",
   "also_searched_count", "model_types", "model_types_json",
   "model_types_count", "modalities_inputs", "modalities_outputs",
   "modalities_inputs_json", "modalities_outputs_json",
   "modalities_inputs_count", "modalities_outputs_count", "ai_lists_count",
   "ai_lists_json", "leaderboard_rank", "leaderboard_score", "comments_count",
   "comments_json", "video_views", "task_label_name", "task_label_url",
   "video_views_number", "visit_site_text", "visit_site_link", "iframe_src",
   "iframe_data_src", "faq_count", "faq_json", "top_alternative_count",
   "top_alternative_json", "featured_items_count", "featured_items_json"]

def COLUMNS_2024 : List String :=
  ["name", "link", "tool_link", "description", "use_case", "pricing_model",
   "saves", "rating", "number_of_ratings", "number_of_comments",
   "versions_count", "versions", "pros_count", "cons_count", "pros", "cons",
   "pros_json", "cons_json", "also_searched", "also_searched_json",
   "also_searched_count", "rank_text", "comments_count", "comments_json",
   "task_label_name", "task_label_url", "faq_count", "faq_json",
   "featured_cards_count", "featured_cards_json", "tools_count", "tools_json",
   "cards_count", "cards_json"]

def COLUMNS_2023 : List String :=
  ["snapshot_timestamp", "snapshot_url", "use_case_name", "use_case_category",
   "use_case_created_date", "link", "tool_link", "rank_task_name",
   "rank_full_text", "rank_number", "rank_label", "tags", "tags_json",
   "tags_count", "tag_price", "description", "description_json",
   "description_length", "listings_count", "listings_json",
   "also_searched_count", "also_searched_json"]

/-- The five columns added on top of the per-year lists in `GLOBAL_COLUMNS`. -/
def EXTRA_COLUMNS : List String :=
  ["snapshot_url", "snapshot_timestamp", "snapshot_year", "_schema", "error"]

/-- The `set(...) | ... | {...}` union of `GLOBAL_COLUMNS` before sorting:
duplicates removed, one representative per column name. -/
def GLOBAL_COLUMNS_set : List String :=
  (COLUMNS_2023 ++ COLUMNS_2024 ++ COLUMNS_2025 ++ EXTRA_COLUMNS).dedup

/-- Code-point lexicographic order on strings, the order Python's `sorted`
uses on `str`. -/
def strLeB (a b : String) : Bool :=
  go a.data b.data
where
  go : List Char → List Char → Bool
    | [], _ => true
    | _ :: _, [] => false
    | c :: cs, d :: ds =>
      if c.toNat < d.toNat then true
      else if d.toNat < c.toNat then false
      else go cs ds

def insertSorted (x : String) : List String → List String
  | [] => [x]
  | y :: t => if strLeB x y then x :: y :: t else y :: insertSorted x t

def sortStrings : List String → List String
  | [] => []
  | x :: t => insertSorted x (sortStrings t)

/-- `GLOBAL_COLUMNS = sorted(set(COLUMNS_2023) | set(COLUMNS_2024)
| set(COLUMNS_2025) | {provenance and error columns})`. -/
def GLOBAL_COLUMNS : List String :=
  sortStrings GLOBAL_COLUMNS_set

/-! ## Records (`extract_year_ts`, `init_record`, lines 221-232)

A `Record` is a Python dict from column name to cell; a cell is `None` or a
value (modelled as a string — no claim depends on the value type). -/

abbrev Value := Option String

abbrev Record := List (String × Value)

/-- Python dict assignment `r[k] = v`: replaces the value if the key is
present, appends the key otherwise. -/
def dictSet : Record → String → Value → Record
  | [], k, v => [(k, v)]
  | p :: r, k, v => if p.1 = k then (k, v) :: r else p :: dictSet r k v

/-- Python dict read `r[k]`: `some cell` when the key is present. -/
def getF : Record → String → Option Value
  | [], _ => none
  | p :: r, k => if p.1 = k then some p.2 else getF r k

/-- The key set (in insertion order) of a record. -/
def keysOf (r : Record) : List String :=
  r.map Prod.fst

/-- `extract_year_ts`: searches the url for `/web/` followed by 14 digits and
`/`; returns `(timestamp[:4], timestamp)`, or `(None, None)` if absent.
`grabTs` attempts the match at the head of the character list. -/
def grabTs : List Char → Option (List Char)
  | '/' :: 'w' :: 'e' :: 'b' :: '/' :: rest =>
    let ds := rest.take 14
    if ds.length = 14 && ds.all Char.isDigit && (rest.drop 14).head? == some '/' then
      some ds
    else none
  | _ => none

def findTs : List Char → Option (List Char)
  | [] => none
  | c :: rest =>
    match grabTs (c :: rest) with
    | some ds => some ds
    | none => findTs rest

def extract_year_ts (url : String) : Option String × Option String :=
  match findTs url.data with
  | none => (none, none)
  | some ds => (some (String.mk (ds.take 4)), some (String.mk ds))

/-- `init_record(year)`: `dict.fromkeys(GLOBAL_COLUMNS, None)` then
`r["_schema"] = year; r["snapshot_year"] = year`. -/
def init_record (year : Value) : Record :=
  dictSet (dictSet (GLOBAL_COLUMNS.map fun k => (k, (none : Value))) "_schema" year)
    "snapshot_year" year

/-! ## Per-year parsers and dispatch (`parse_2023/2024/2025`,
`dispatch_parse`, lines 298-2094)

Each `parse_QQQQ(html, snapshot_url)` builds `init_record(year)`, assigns the
provenance fields, and then runs a large BeautifulSoup extraction inside
`try: ... except Exception as e: print(...)`.  Every assignment target inside
the `try` block is a fixed literal key (listed below per parser).  The
extraction itself is pure content→value code outside the verified core, so it
is abstracted as a `ParseTry`: the list of `record[k] = v` assignments the
block performed, in order, together with whether it ended by raising (the
exception is caught and only printed — the record is returned either way,
which is exactly what the claims about `error` are probing). -/

/-- The outcome of one parser's `try` block. -/
structure ParseTry where
  assigns : List (String × Value)
  raised : Bool

def applyAssigns (r : Record) (l : List (String × Value)) : Record :=
  l.foldl (fun r p => dictSet r p.1 p.2) r

/-- The literal assignment targets inside `parse_2023`'s `try` block. -/
def keys_2023 : List String :=
  ["use_case_name", "use_case_created_date", "use_case_category",
   "rank_task_name", "rank_full_text", "rank_number", "rank_label",
   "tags_count", "tags", "tags_json", "tag_price", "description",
   "description_json", "description_length", "listings_count",
   "listings_json", "also_searched_count", "also_searched_json"]

/-- The literal assignment targets inside `parse_2024`'s `try` block. -/
def keys_2024 : List String :=
  ["name", "tool_link", "description", "use_case", "pricing_model", "saves",
   "rating", "number_of_ratings", "number_of_comments", "versions_count",
   "versions", "pros_count", "cons_count", "pros", "cons", "pros_json",
   "cons_json", "also_searched", "also_searched_json", "also_searched_count",
   "rank_text", "comments_count", "comments_json", "task_label_name",
   "task_label_url", "faq_count", "faq_json", "featured_cards_count",
   "featured_cards_json", "tools_count", "tools_json"]

/-- The literal assignment targets inside `parse_2025`'s `try` block. -/
def keys_2025 : List String :=
  ["name", "tool_link", "description", "use_case", "pricing_model",
   "paid_options_from", "billing_frequency", "refund_policy",
   "discount_label", "discount_value", "discount_code", "views", "saves",
   "author_date", "rating", "number_of_ratings", "number_of_comments",
   "socials_count", "socials", "socials_json", "socials_links_json",
   "author_name", "author_username", "author_profile_url", "author_bio",
   "author_socials_json", "author_socials_count", "versions_count",
   "versions", "pros_count", "cons_count", "pros", "cons", "pros_json",
   "cons_json", "also_searched", "also_searched_json", "also_searched_count",
   "model_types", "model_types_json", "model_types_count",
   "modalities_inputs_count", "modalities_outputs_count",
   "modalities_inputs", "modalities_outputs", "modalities_inputs_json",
   "modalities_outputs_json", "leaderboard_rank", "leaderboard_score",
   "comments_count", "comments_json", "video_views", "video_views_number",
   "visit_site_text", "visit_site_link", "iframe_data_src", "iframe_src",
   "ai_lists_count", "ai_lists_json", "task_label_name", "task_label_url",
   "faq_count", "faq_json", "top_alternative_count", "top_alternative_json",
   "featured_items_count", "featured_items_json"]

/-- `parse_2023`: provenance preamble (`snapshot_url`, `snapshot_timestamp`,
`link`) assigned before the `try` block, then the block's assignments.
Note the `except` branch only prints: `record["error"]` is never touched. -/
def parse_2023 (body : ParseTry) (snapshot_url : String) : Record :=
  let ts := (extract_year_ts snapshot_url).2
  let r := init_record (some "2023")
  let r := dictSet r "snapshot_url" (some snapshot_url)
  let r := dictSet r "snapshot_timestamp" ts
  let r := dictSet r "link" (some snapshot_url)
  applyAssigns r body.assigns

/-- `parse_2024`: same preamble as `parse_2023` (including `link`). -/
def parse_2024 (body : ParseTry) (snapshot_url : String) : Record :=
  let ts := (extract_year_ts snapshot_url).2
  let r := init_record (some "2024")
  let r := dictSet r "snapshot_url" (some snapshot_url)
  let r := dictSet r "snapshot_timestamp" ts
  let r := dictSet r "link" (some snapshot_url)
  applyAssigns r body.assigns

/-- `parse_2025`: preamble assigns `snapshot_url` and `snapshot_timestamp`
only (no `link`). -/
def parse_2025 (body : ParseTry) (snapshot_url : String) : Record :=
  let ts := (extract_year_ts snapshot_url).2
  let r := init_record (some "2025")
  let r := dictSet r "snapshot_url" (some snapshot_url)
  let r := dictSet r "snapshot_timestamp" ts
  applyAssigns r body.assigns

/-- `dispatch_parse(html, snapshot_url)`: selects the parser by the year
derived from the snapshot timestamp; an unrecognized year yields a record
with `error = f"unsupported year {year}"`.  The `try/except` around the
dispatch is dead code in the embedding because the per-year parsers catch
internally and never raise. -/
def dispatch_parse (b23 b24 b25 : ParseTry) (snapshot_url : String) : Record :=
  let year := (extract_year_ts snapshot_url).1
  if year = some "2023" then parse_2023 b23 snapshot_url
  else if year = some "2024" then parse_2024 b24 snapshot_url
  else if year = some "2025" then parse_2025 b25 snapshot_url
  else
    let r := init_record year
    let r := dictSet r "snapshot_url" (some snapshot_url)
    dictSet r "error" (some ("unsupported year " ++ strOfLast year))

/-- The record built by `worker` (lines 2132-2137) when `fetch` returned no
html: `init_record(y)` with `snapshot_url`, `snapshot_timestamp` and `error`
assigned. -/
def worker_fail_record (url : String) (err : String) : Record :=
  let yt := extract_year_ts url
  let r := init_record yt.1
  let r := dictSet r "snapshot_url" (some url)
  let r := dictSet r "snapshot_timestamp" yt.2
  dictSet r "error" (some err)

/-! ## RateLimiter (lines 189-206)

`RateLimiter(rpm)` starts with `tokens = capacity = rpm` and `last = now`.
`acquire()` loops: under the lock it refills
`tokens = min(capacity, tokens + (now - last) * capacity / 60)`, sets
`last = now`, and consumes a token if `tokens >= 1`, otherwise sleeps 50ms
and tries again.  The embedding runs one lock-protected loop iteration at a
given wall-clock time; a call pattern is the nondecreasing list of times at
which iterations run (across any number of concurrent callers), and the
successful acquisitions are the iterations that consumed a token. -/

structure RateLimiter where
  capacity : ℚ
  tokens : ℚ
  last : ℚ
deriving DecidableEq

namespace RateLimiter

/-- One iteration of the `while True` body at wall-clock time `now`:
refill, then consume a token if at least one is available.  Returns the
updated limiter and whether the acquisition succeeded. -/
def acquire (s : RateLimiter) (now : ℚ) : RateLimiter × Bool :=
  let tokens := min s.capacity (s.tokens + (now - s.last) * (s.capacity / 60))
  if 1 ≤ tokens then (⟨s.capacity, tokens - 1, now⟩, true)
  else (⟨s.capacity, tokens, now⟩, false)

/-- Run a list of acquisition attempts (at nondecreasing times) and return
the times of the successful ones. -/
def runAcquires : RateLimiter → List ℚ → List ℚ
  | _, [] => []
  | s, t :: ts =>
    let p := acquire s t
    if p.2 then t :: runAcquires p.1 ts else runAcquires p.1 ts

end RateLimiter

/-- Number of successful acquisitions with time in the window `[a, b]`. -/
def countWindow (a b : ℚ) (l : List ℚ) : Nat :=
  (l.filter fun t => decide (a ≤ t) && decide (t ≤ b)).length

/-! ## Checkpoint persistence (lines 2104, 2151, 2181)

The source persists the checkpoint with
`json.dump(list(processed), open(CHECKPOINT_FILE, "w"))`: opening with mode
`"w"` truncates the file immediately, and the serialized list is written
afterwards.  A persist is modelled as the list of file-system actions it
performs, run against a file system mapping paths to contents; a crash may
stop the action list after any prefix. -/

inductive FsAct where
  | openTrunc (path : String)
  | writeAll (path : String) (content : String)
  | rename (src dst : String)
deriving DecidableEq

abbrev Fs := List (String × String)

def setFs : Fs → String → String → Fs
  | [], p, c => [(p, c)]
  | q :: fs, p, c => if q.1 = p then (p, c) :: fs else q :: setFs fs p c

def getFs : Fs → String → Option String
  | [], _ => none
  | q :: fs, p => if q.1 = p then some q.2 else getFs fs p

def delFs (fs : Fs) (p : String) : Fs :=
  fs.filter fun q => q.1 ≠ p

def applyAct (fs : Fs) : FsAct → Fs
  | .openTrunc p => setFs fs p ""
  | .writeAll p c => setFs fs p ((getFs fs p).getD "" ++ c)
  | .rename src dst =>
    match getFs fs src with
    | some c => delFs (setFs fs dst c) src
    | none => fs

def applyActs (fs : Fs) (acts : List FsAct) : Fs :=
  acts.foldl applyAct fs

/-- The file-system actions of the source's checkpoint persist:
`open(CHECKPOINT_FILE, "w")` truncates, then `json.dump` writes the
serialized key list.  No temporary file, no rename. -/
def persistActions (content : String) : List FsAct :=
  [FsAct.openTrunc CHECKPOINT_FILE, FsAct.writeAll CHECKPOINT_FILE content]

/-- Modelled from the spec: the `persist()` the spec describes — §4.5 "writes
to a temporary file and renames it over the existing checkpoint file".  This
operation is absent from the source; it is the spec-side of claim C4's
comparison. -/
def atomicPersistActions (content : String) : List FsAct :=
  [FsAct.openTrunc (CHECKPOINT_FILE ++ ".tmp"),
   FsAct.writeAll (CHECKPOINT_FILE ++ ".tmp") content,
   FsAct.rename (CHECKPOINT_FILE ++ ".tmp") CHECKPOINT_FILE]

/-! ## Orchestration (`main` and `worker`, lines 2098-2185)

State of one crawl process plus the durable files.  Records in the buffer
and in the output table are represented by their `snapshot_url` key (the
worker produces exactly one record per processed url, whatever the fetch and
parse outcome — both `dispatch_parse` and the fetch-failure record carry the
url in `snapshot_url`).

One transition is one worker action or one durable file write.  The
`asyncio.Lock` makes the buffer-append / flush region atomic relative to
other workers, but a crash can still interrupt it between the two durable
writes of a flush — `df_tmp.to_csv(OUT_CSV)` (line 2149) and
`json.dump(..., CHECKPOINT_FILE)` (line 2151): the flag `midFlush` marks the
state between them, in which only the checkpoint dump (or a crash) can run.

`Lab.crash` models killing the process and starting it again: the durable
files survive, `processed` is reloaded from the checkpoint file (line 2104,
absent file = empty set), the work list is re-read from the input csv. -/

structure Sys where
  pending : List String
  processed : List String
  buffer : List String
  midFlush : Bool
  disk_csv : List String
  disk_ckpt : List String
deriving DecidableEq

/-- The possible transitions: a worker skipping an already-processed url, a
worker processing a url (appending its record and, at the `SAVE_EVERY`
threshold, writing the csv), the checkpoint dump that completes a flush, the
final flush and final checkpoint dump of `main`, and a crash + restart. -/
inductive Lab where
  | skipDone
  | work
  | ckptDump
  | finalCsv
  | finalDump
  | crash
deriving DecidableEq, BEq

def step (urls : List String) (s : Sys) : Lab → Option Sys
  | .skipDone =>
    match s.pending with
    | [] => none
    | u :: rest =>
      if s.midFlush then none
      else if u ∈ s.processed then some { s with pending := rest } else none
  | .work =>
    match s.pending with
    | [] => none
    | u :: rest =>
      if s.midFlush then none
      else if u ∈ s.processed then none
      else
        let buf := s.buffer ++ [u]
        let proc := s.processed ++ [u]
        if SAVE_EVERY ≤ buf.length then
          some ⟨rest, proc, [], true, s.disk_csv ++ buf, s.disk_ckpt⟩
        else some ⟨rest, proc, buf, false, s.disk_csv, s.disk_ckpt⟩
  | .ckptDump =>
    if s.midFlush then some { s with disk_ckpt := s.processed, midFlush := false }
    else none
  | .finalCsv =>
    if s.pending = [] ∧ s.midFlush = false ∧ s.buffer ≠ [] then
      some { s with buffer := [], midFlush := true, disk_csv := s.disk_csv ++ s.buffer }
    else none
  | .finalDump =>
    if s.pending = [] ∧ s.midFlush = false ∧ s.buffer = [] then
      some { s with disk_ckpt := s.processed }
    else none
  | .crash =>
    some ⟨urls, s.disk_ckpt, [], false, s.disk_csv, s.disk_ckpt⟩

/-- A fresh process over an output directory with no durable files yet. -/
def initSys (urls : List String) : Sys :=
  ⟨urls, [], [], false, [], []⟩

def execs (urls : List String) : Sys → List Lab → Option Sys
  | s, [] => some s
  | s, l :: ls =>
    match step urls s l with
    | none => none
    | some s' => execs urls s' ls

/-- `true` when every crash in the (valid) schedule happens outside the
window between a flush's csv write and its checkpoint dump. -/
def crashesOutsideFlush (urls : List String) : Sys → List Lab → Bool
  | _, [] => true
  | s, l :: ls =>
    match step urls s l with
    | none => true
    | some s' => (!(l == Lab.crash) || !s.midFlush) && crashesOutsideFlush urls s' ls

/-- The total back-off `fetch` sleeps when all seven attempts are transient:
`1.8 ** 1 + ... + 1.8 ** 7`. -/
def fullBackoff : ℚ :=
  BASE ^ 1 + BASE ^ 2 + BASE ^ 3 + BASE ^ 4 + BASE ^ 5 + BASE ^ 6 + BASE ^ 7

/-- Safety invariant of the orchestration: in a mid-flush state the buffer
has just been written out (it is empty), every processed key has its record
in the durable table or in the buffer, and every checkpointed key has its
record in the durable table. -/
def SysInv (s : Sys) : Prop :=
  (s.midFlush = true → s.buffer = []) ∧
  (∀ k ∈ s.processed, k ∈ s.disk_csv ∨ k ∈ s.buffer) ∧
  (∀ k ∈ s.disk_ckpt, k ∈ s.disk_csv)

/-- Uniqueness invariant, maintained as long as no crash lands between a
flush's table write and its checkpoint dump: on top of `SysInv`, the durable
table plus the buffer hold at most one record per key, the processed set and
the checkpoint are duplicate-free, table and buffer keys are all processed,
outside a flush every durable table row is already checkpointed, and every
input url is still pending or already processed. -/
def SysUniq (urls : List String) (s : Sys) : Prop :=
  SysInv s ∧
  (s.disk_csv ++ s.buffer).Nodup ∧
  s.processed.Nodup ∧
  s.disk_ckpt.Nodup ∧
  (∀ k ∈ s.disk_csv, k ∈ s.processed) ∧
  (∀ k ∈ s.buffer, k ∈ s.processed) ∧
  (s.midFlush = false → ∀ k ∈ s.disk_csv, k ∈ s.disk_ckpt) ∧
  (∀ u ∈ urls, u ∈ s.pending ∨ u ∈ s.processed)

/-- Fifty distinct snapshot urls, enough to trigger one `SAVE_EVERY` flush. -/
def urls50 : List String :=
  (List.range 50).map fun i => toString i

/-- A schedule killing the process between the flush's table write and its
checkpoint dump: 50 items are processed (the 50th triggers the flush, whose
csv write completes), the process crashes before the checkpoint dump, and the
resumed run — finding an absent checkpoint — reprocesses all 50 items. -/
def sched50 : List Lab :=
  List.replicate 50 Lab.work ++ [Lab.crash] ++ List.replicate 50 Lab.work ++
    [Lab.ckptDump, Lab.finalDump]

/-! # Theorems -/

/-- C8 (confirmed): a 404 response on the first attempt makes `fetch` return
the terminal error `"HTTP 404"` after exactly one attempt, with no retry and
no back-off sleep. -/
theorem c8_notfound_terminal (responses : Nat → Resp) (body : String)
    (h : responses 1 = .http 404 body) :
    fetch responses = ⟨none, some "HTTP 404", 1, 0⟩ := by
  simp [fetch, fetchFrom, h, transientStatus]
  decide

/-- Witness for C8 at the constant-404 response function. -/
theorem c8_notfound_terminal_witness :
    (fun _ => Resp.http 404 "") 1 = Resp.http 404 "" ∧
    fetch (fun _ => Resp.http 404 "") = ⟨none, some "HTTP 404", 1, 0⟩ :=
  ⟨rfl, c8_notfound_terminal (fun _ => Resp.http 404 "") "" rfl⟩

/-- C6 (counterexample): an HTTP 504 response is NOT treated as transient:
`fetch` returns the terminal error `"HTTP 504"` after a single attempt with
zero sleep, instead of sleeping and retrying as the claim states (the
source's transient tuple at line 286 is `(429, 502, 503)` — 504 is absent). -/
theorem c6_counterexample :
    fetch (fun _ => Resp.http 504 "") = ⟨none, some "HTTP 504", 1, 0⟩ ∧
    transientStatus 504 = false := by
  decide

/-- C6 (amended): statuses 429, 502 and 503 are transient — the fetcher
sleeps exactly `BASE ^ attempt` (there is no added jitter) and retries — while
504 is terminal (`HttpError 504`), contrary to the claim's list. -/
theorem c6_amended :
    (∀ (responses : Nat → Resp) (c : Nat) (b0 b1 : String),
      (c = 429 ∨ c = 502 ∨ c = 503) →
      responses 1 = .http c b0 → responses 2 = .http 200 b1 →
      fetch responses = ⟨some b1, none, 2, BASE ^ 1⟩) ∧
    (∀ (responses : Nat → Resp) (b0 : String),
      responses 1 = .http 504 b0 →
      fetch responses = ⟨none, some "HTTP 504", 1, 0⟩) := by
  constructor
  · intro responses c b0 b1 hc h1 h2
    rcases hc with rfl | rfl | rfl <;>
      simp [fetch, fetchFrom, h1, h2, transientStatus]
  · intro responses b0 h1
    simp [fetch, fetchFrom, h1, transientStatus]
    decide

/-- Witness for C6 (amended): a 503 then 200 run, and a 504 run. -/
theorem c6_amended_witness :
    fetch (fun i => if i = 1 then Resp.http 503 "" else Resp.http 200 "ok") =
      ⟨some "ok", none, 2, BASE ^ 1⟩ ∧
    fetch (fun _ => Resp.http 504 "") = ⟨none, some "HTTP 504", 1, 0⟩ :=
  ⟨c6_amended.1 _ 503 "" "ok" (Or.inr (Or.inr rfl)) rfl rfl,
   c6_amended.2 _ "" rfl⟩

/-- C7 (counterexample): when every attempt fails with the transient status
503, `fetch` exhausts its seven attempts but returns the error string
`"None"` — `str(last)` where `last` was never assigned — not a terminal error
carrying the cause of the last failed attempt (which was HTTP 503): the
transient-status branch never updates `last`. -/
theorem c7_counterexample :
    fetch (fun _ => Resp.http 503 "") =
      ⟨none, some "None", 7, fullBackoff⟩ ∧
    "None" ≠ "HTTP 503" := by
  constructor
  · simp [fetch, fetchFrom, transientStatus, fullBackoff, strOfLast]
  · decide

/-- C7 (amended): when all seven attempts fail transiently, `fetch` returns a
terminal `(None, str(last))` whose text is the message of the last
*exception* encountered — transient HTTP statuses never update `last`, so a
run whose transient failures were all HTTP statuses reports `"None"`. -/
theorem c7_amended :
    (∀ (c : Nat) (b : String), (c = 429 ∨ c = 502 ∨ c = 503) →
      fetch (fun _ => Resp.http c b) = ⟨none, some "None", 7, fullBackoff⟩) ∧
    (∀ m : String,
      fetch (fun _ => Resp.exc m) = ⟨none, some m, 7, fullBackoff⟩) := by
  constructor
  · intro c b hc
    rcases hc with rfl | rfl | rfl <;>
      simp [fetch, fetchFrom, transientStatus, fullBackoff, strOfLast]
  · intro m
    simp [fetch, fetchFrom, transientStatus, fullBackoff, strOfLast]
    try ring

/-- Witness for C7 (amended) at status 503 and at a named network error. -/
theorem c7_amended_witness :
    fetch (fun _ => Resp.http 503 "") = ⟨none, some "None", 7, fullBackoff⟩ ∧
    fetch (fun _ => Resp.exc "timeout") =
      ⟨none, some "timeout", 7, fullBackoff⟩ :=
  ⟨c7_amended.1 503 "" (Or.inr (Or.inr rfl)), c7_amended.2 "timeout"⟩

/-! ## Record and schema lemmas -/

theorem insertSorted_perm (x : String) (l : List String) :
    List.Perm (insertSorted x l) (x :: l) := by
  induction l with
  | nil => exact List.Perm.refl _
  | cons y t ih =>
    rw [insertSorted]
    split
    · exact List.Perm.refl _
    · exact (ih.cons y).trans (List.Perm.swap x y t)

theorem sortStrings_perm (l : List String) : List.Perm (sortStrings l) l := by
  induction l with
  | nil => exact List.Perm.refl _
  | cons x t ih => exact (insertSorted_perm x (sortStrings t)).trans (ih.cons x)

/-- Membership in `GLOBAL_COLUMNS` is membership in the concatenation of the
per-year column lists and the extra columns. -/
theorem mem_GLOBAL_COLUMNS {x : String} :
    x ∈ GLOBAL_COLUMNS ↔
      x ∈ COLUMNS_2023 ++ COLUMNS_2024 ++ COLUMNS_2025 ++ EXTRA_COLUMNS := by
  rw [GLOBAL_COLUMNS, (sortStrings_perm _).mem_iff, GLOBAL_COLUMNS_set,
    List.mem_dedup]

theorem getF_dictSet_self (r : Record) (k : String) (v : Value) :
    getF (dictSet r k v) k = some v := by
  induction r with
  | nil => simp [dictSet, getF, keysOf]
  | cons p t ih =>
    by_cases hpk : p.1 = k <;> simp_all [dictSet, getF, keysOf]

theorem getF_dictSet_ne (r : Record) {k k' : String} (v : Value)
    (h : k' ≠ k) : getF (dictSet r k v) k' = getF r k' := by
  induction r with
  | nil =>
    simp only [dictSet, getF]
    rw [if_neg (fun hh => h hh.symm)]
  | cons p t ih =>
    rw [dictSet]
    by_cases hpk : p.1 = k
    · rw [if_pos hpk]
      simp only [getF]
      rw [if_neg (fun hh => h hh.symm), if_neg (fun hh => h (hpk ▸ hh).symm)]
    · rw [if_neg hpk]
      simp only [getF]
      by_cases hpk' : p.1 = k'
      · rw [if_pos hpk', if_pos hpk']
      · rw [if_neg hpk', if_neg hpk', ih]

theorem keysOf_dictSet_of_mem {r : Record} {k : String} (v : Value)
    (h : k ∈ keysOf r) : keysOf (dictSet r k v) = keysOf r := by
  induction r with
  | nil => simp [keysOf] at h
  | cons p t ih =>
    rw [dictSet]
    by_cases hpk : p.1 = k
    · rw [if_pos hpk]
      simp [keysOf, hpk]
    · rw [if_neg hpk]
      have hkt : k ∈ keysOf t := by
        simp only [keysOf, List.map_cons, List.mem_cons] at h
        exact h.resolve_left fun hh => hpk hh.symm
      simp only [keysOf, List.map_cons]
      rw [show List.map Prod.fst (dictSet t k v) = keysOf (dictSet t k v) from rfl,
        ih hkt]
      rfl

/-- `dictSet` on a record whose keys are `GLOBAL_COLUMNS`, at a key of
`GLOBAL_COLUMNS`, keeps the keys. -/
theorem keysOf_dictSet_eq {r : Record} {k : String} (v : Value)
    (h : keysOf r = GLOBAL_COLUMNS) (hk : k ∈ GLOBAL_COLUMNS) :
    keysOf (dictSet r k v) = GLOBAL_COLUMNS := by
  rw [keysOf_dictSet_of_mem v (by rw [h]; exact hk), h]

theorem keysOf_applyAssigns {l : List (String × Value)} : ∀ {r : Record},
    (∀ p ∈ l, p.1 ∈ keysOf r) → keysOf (applyAssigns r l) = keysOf r := by
  induction l with
  | nil => intro r _; rfl
  | cons q t ih =>
    intro r h
    have h1 : q.1 ∈ keysOf r := h q (by simp)
    have hk := keysOf_dictSet_of_mem q.2 h1
    have : applyAssigns r (q :: t) = applyAssigns (dictSet r q.1 q.2) t := rfl
    rw [this, ih (fun p hp => hk ▸ h p (List.mem_cons_of_mem q hp)), hk]

theorem getF_applyAssigns_ne {l : List (String × Value)} {k : String} :
    ∀ {r : Record}, (∀ p ∈ l, p.1 ≠ k) →
      getF (applyAssigns r l) k = getF r k := by
  induction l with
  | nil => intro r _; rfl
  | cons q t ih =>
    intro r h
    have : applyAssigns r (q :: t) = applyAssigns (dictSet r q.1 q.2) t := rfl
    rw [this, ih (fun p hp => h p (List.mem_cons_of_mem q hp)),
      getF_dictSet_ne _ _ (fun hkq => h q (List.mem_cons_self q t) hkq.symm)]

theorem keysOf_fromkeys (l : List String) :
    keysOf (l.map fun k => (k, (none : Value))) = l := by
  simp [keysOf, List.map_map, Function.comp_def]

theorem getF_fromkeys {l : List String} {k : String} (h : k ∈ l) :
    getF (l.map fun k => (k, (none : Value))) k = some none := by
  induction l with
  | nil => cases h
  | cons a t ih =>
    simp only [List.map_cons, getF]
    by_cases hak : a = k
    · rw [if_pos hak]
    · rw [if_neg hak]
      exact ih ((List.mem_cons.mp h).resolve_left fun hh => hak hh.symm)

theorem mem_GC_schema : "_schema" ∈ GLOBAL_COLUMNS :=
  mem_GLOBAL_COLUMNS.mpr (by decide)

theorem mem_GC_snapshot_year : "snapshot_year" ∈ GLOBAL_COLUMNS :=
  mem_GLOBAL_COLUMNS.mpr (by decide)

theorem mem_GC_snapshot_url : "snapshot_url" ∈ GLOBAL_COLUMNS :=
  mem_GLOBAL_COLUMNS.mpr (by decide)

theorem mem_GC_snapshot_timestamp : "snapshot_timestamp" ∈ GLOBAL_COLUMNS :=
  mem_GLOBAL_COLUMNS.mpr (by decide)

theorem mem_GC_link : "link" ∈ GLOBAL_COLUMNS :=
  mem_GLOBAL_COLUMNS.mpr (by decide)

theorem mem_GC_error : "error" ∈ GLOBAL_COLUMNS :=
  mem_GLOBAL_COLUMNS.mpr (by decide)

theorem mem_GC_name : "name" ∈ GLOBAL_COLUMNS :=
  mem_GLOBAL_COLUMNS.mpr (by decide)

theorem keys_2023_sub : ∀ x ∈ keys_2023, x ∈ GLOBAL_COLUMNS := by
  have h : ∀ x ∈ keys_2023,
      x ∈ COLUMNS_2023 ++ COLUMNS_2024 ++ COLUMNS_2025 ++ EXTRA_COLUMNS := by
    decide
  exact fun x hx => mem_GLOBAL_COLUMNS.mpr (h x hx)

theorem keys_2024_sub : ∀ x ∈ keys_2024, x ∈ GLOBAL_COLUMNS := by
  have h : ∀ x ∈ keys_2024,
      x ∈ COLUMNS_2023 ++ COLUMNS_2024 ++ COLUMNS_2025 ++ EXTRA_COLUMNS := by
    decide
  exact fun x hx => mem_GLOBAL_COLUMNS.mpr (h x hx)

theorem keys_2025_sub : ∀ x ∈ keys_2025, x ∈ GLOBAL_COLUMNS := by
  have h : ∀ x ∈ keys_2025,
      x ∈ COLUMNS_2023 ++ COLUMNS_2024 ++ COLUMNS_2025 ++ EXTRA_COLUMNS := by
    decide
  exact fun x hx => mem_GLOBAL_COLUMNS.mpr (h x hx)

theorem keysOf_init_record (y : Value) :
    keysOf (init_record y) = GLOBAL_COLUMNS := by
  rw [init_record,
    keysOf_dictSet_eq _ (keysOf_dictSet_eq _ (keysOf_fromkeys _) mem_GC_schema)
      mem_GC_snapshot_year]

theorem getF_init_record {k : String} (y : Value) (hk : k ∈ GLOBAL_COLUMNS)
    (h1 : k ≠ "_schema") (h2 : k ≠ "snapshot_year") :
    getF (init_record y) k = some none := by
  rw [init_record, getF_dictSet_ne _ _ h2, getF_dictSet_ne _ _ h1,
    getF_fromkeys hk]

theorem keysOf_parse_2023 (b : ParseTry) (url : String)
    (hb : ∀ p ∈ b.assigns, p.1 ∈ keys_2023) :
    keysOf (parse_2023 b url) = GLOBAL_COLUMNS := by
  rw [parse_2023]
  have hpre :
      keysOf (dictSet (dictSet (dictSet (init_record (some "2023"))
        "snapshot_url" (some url)) "snapshot_timestamp"
        (extract_year_ts url).2) "link" (some url)) = GLOBAL_COLUMNS :=
    keysOf_dictSet_eq _ (keysOf_dictSet_eq _ (keysOf_dictSet_eq _
      (keysOf_init_record _) mem_GC_snapshot_url) mem_GC_snapshot_timestamp)
      mem_GC_link
  rw [keysOf_applyAssigns (fun p hp => by
    rw [hpre]; exact keys_2023_sub p.1 (hb p hp)), hpre]

theorem keysOf_parse_2024 (b : ParseTry) (url : String)
    (hb : ∀ p ∈ b.assigns, p.1 ∈ keys_2024) :
    keysOf (parse_2024 b url) = GLOBAL_COLUMNS := by
  rw [parse_2024]
  have hpre :
      keysOf (dictSet (dictSet (dictSet (init_record (some "2024"))
        "snapshot_url" (some url)) "snapshot_timestamp"
        (extract_year_ts url).2) "link" (some url)) = GLOBAL_COLUMNS :=
    keysOf_dictSet_eq _ (keysOf_dictSet_eq _ (keysOf_dictSet_eq _
      (keysOf_init_record _) mem_GC_snapshot_url) mem_GC_snapshot_timestamp)
      mem_GC_link
  rw [keysOf_applyAssigns (fun p hp => by
    rw [hpre]; exact keys_2024_sub p.1 (hb p hp)), hpre]

theorem keysOf_parse_2025 (b : ParseTry) (url : String)
    (hb : ∀ p ∈ b.assigns, p.1 ∈ keys_2025) :
    keysOf (parse_2025 b url) = GLOBAL_COLUMNS := by
  rw [parse_2025]
  have hpre :
      keysOf (dictSet (dictSet (init_record (some "2025"))
        "snapshot_url" (some url)) "snapshot_timestamp"
        (extract_year_ts url).2) = GLOBAL_COLUMNS :=
    keysOf_dictSet_eq _ (keysOf_dictSet_eq _
      (keysOf_init_record _) mem_GC_snapshot_url) mem_GC_snapshot_timestamp
  rw [keysOf_applyAssigns (fun p hp => by
    rw [hpre]; exact keys_2025_sub p.1 (hb p hp)), hpre]

theorem keysOf_worker_fail_record (url err : String) :
    keysOf (worker_fail_record url err) = GLOBAL_COLUMNS := by
  rw [worker_fail_record]
  exact keysOf_dictSet_eq _ (keysOf_dictSet_eq _ (keysOf_dictSet_eq _
    (keysOf_init_record _) mem_GC_snapshot_url) mem_GC_snapshot_timestamp)
    mem_GC_error

theorem keysOf_dispatch_parse (b23 b24 b25 : ParseTry) (url : String)
    (h23 : ∀ p ∈ b23.assigns, p.1 ∈ keys_2023)
    (h24 : ∀ p ∈ b24.assigns, p.1 ∈ keys_2024)
    (h25 : ∀ p ∈ b25.assigns, p.1 ∈ keys_2025) :
    keysOf (dispatch_parse b23 b24 b25 url) = GLOBAL_COLUMNS := by
  rw [dispatch_parse]
  split
  · exact keysOf_parse_2023 b23 url h23
  · split
    · exact keysOf_parse_2024 b24 url h24
    · split
      · exact keysOf_parse_2025 b25 url h25
      · exact keysOf_dictSet_eq _ (keysOf_dictSet_eq _
          (keysOf_init_record _) mem_GC_snapshot_url) mem_GC_error

/-- C10 (confirmed): every record the system produces — `init_record`, the
per-year parsers (whose `try`-block assignment targets are the literal keys
collected in `keys_2023/2024/2025`), `dispatch_parse` on every branch, and
the worker's fetch-failure record — has exactly the key list
`GLOBAL_COLUMNS`, and every key it does not explicitly assign holds `None`. -/
theorem c10_records_carry_global_schema :
    (∀ y, keysOf (init_record y) = GLOBAL_COLUMNS) ∧
    (∀ b url, (∀ p ∈ b.assigns, p.1 ∈ keys_2023) →
      keysOf (parse_2023 b url) = GLOBAL_COLUMNS) ∧
    (∀ b url, (∀ p ∈ b.assigns, p.1 ∈ keys_2024) →
      keysOf (parse_2024 b url) = GLOBAL_COLUMNS) ∧
    (∀ b url, (∀ p ∈ b.assigns, p.1 ∈ keys_2025) →
      keysOf (parse_2025 b url) = GLOBAL_COLUMNS) ∧
    (∀ b23 b24 b25 url,
      (∀ p ∈ b23.assigns, p.1 ∈ keys_2023) →
      (∀ p ∈ b24.assigns, p.1 ∈ keys_2024) →
      (∀ p ∈ b25.assigns, p.1 ∈ keys_2025) →
      keysOf (dispatch_parse b23 b24 b25 url) = GLOBAL_COLUMNS) ∧
    (∀ url err, keysOf (worker_fail_record url err) = GLOBAL_COLUMNS) ∧
    (∀ y k, k ∈ GLOBAL_COLUMNS → k ≠ "_schema" → k ≠ "snapshot_year" →
      getF (init_record y) k = some none) ∧
    (∀ b url k, (∀ p ∈ b.assigns, p.1 ∈ keys_2023) →
      k ∈ GLOBAL_COLUMNS → k ∉ keys_2023 → k ≠ "_schema" →
      k ≠ "snapshot_year" → k ≠ "snapshot_url" → k ≠ "snapshot_timestamp" →
      k ≠ "link" → getF (parse_2023 b url) k = some none) := by
  refine ⟨keysOf_init_record, keysOf_parse_2023, keysOf_parse_2024,
    keysOf_parse_2025, keysOf_dispatch_parse, keysOf_worker_fail_record,
    fun y k hk h1 h2 => getF_init_record y hk h1 h2, ?_⟩
  intro b url k hb hk hnk h1 h2 h3 h4 h5
  rw [parse_2023,
    getF_applyAssigns_ne (fun p hp hpk => hnk (by rw [← hpk]; exact hb p hp)),
    getF_dictSet_ne _ _ h5, getF_dictSet_ne _ _ h4, getF_dictSet_ne _ _ h3,
    getF_init_record _ hk h1 h2]

/-- Witness for C10: the 2023 parser applied to a body that assigned a tag
and then raised, on a concrete snapshot url. -/
theorem c10_records_carry_global_schema_witness :
    keysOf (parse_2023 ⟨[("tags", some "x")], true⟩
      "x/web/20230415000000/y") = GLOBAL_COLUMNS ∧
    getF (parse_2023 ⟨[("tags", some "x")], true⟩
      "x/web/20230415000000/y") "name" = some none ∧
    keysOf (worker_fail_record "x/web/20230415000000/y" "HTTP 404") =
      GLOBAL_COLUMNS :=
  ⟨c10_records_carry_global_schema.2.1 ⟨[("tags", some "x")], true⟩
      "x/web/20230415000000/y" (by decide),
   c10_records_carry_global_schema.2.2.2.2.2.2.2 ⟨[("tags", some "x")], true⟩
      "x/web/20230415000000/y" "name" (by decide)
      mem_GC_name (by decide) (by decide) (by decide) (by decide)
      (by decide) (by decide),
   c10_records_carry_global_schema.2.2.2.2.2.1 "x/web/20230415000000/y"
      "HTTP 404"⟩

/-- C5 (counterexample): the 2023 extractor's `try` block assigns
`use_case_name` and then raises; the `except` branch only prints, so the
returned record has `error = None` — not a non-null `error` — and keeps the
already-extracted field populated rather than null.  (The exception is still
not propagated: `parse_2023` returns a record.) -/
theorem c5_counterexample :
    getF (parse_2023 ⟨[("use_case_name", some "Chatting")], true⟩
      "x/web/20230415000000/y") "error" = some none ∧
    getF (parse_2023 ⟨[("use_case_name", some "Chatting")], true⟩
      "x/web/20230415000000/y") "use_case_name" = some (some "Chatting") := by
  constructor <;> decide

/-- C5 (amended): extraction never propagates an exception to the caller —
`dispatch_parse` always returns a record, for every `try`-block outcome
including one that raised (`b.raised` arbitrary) — but an internal parsing
failure does NOT surface in the record's `error` field: on every recognized
year the returned record has `error = None`, whatever the block did, and the
assignments performed before the failure are retained. -/
theorem c5_amended (b23 b24 b25 : ParseTry) (url : String)
    (h23 : ∀ p ∈ b23.assigns, p.1 ∈ keys_2023)
    (h24 : ∀ p ∈ b24.assigns, p.1 ∈ keys_2024)
    (h25 : ∀ p ∈ b25.assigns, p.1 ∈ keys_2025)
    (hyr : (extract_year_ts url).1 = some "2023" ∨
      (extract_year_ts url).1 = some "2024" ∨
      (extract_year_ts url).1 = some "2025") :
    getF (dispatch_parse b23 b24 b25 url) "error" = some none := by
  have herr23 : ("error" : String) ∉ keys_2023 := by decide
  have herr24 : ("error" : String) ∉ keys_2024 := by decide
  have herr25 : ("error" : String) ∉ keys_2025 := by decide
  have gpre : ∀ (y : Value),
      getF (init_record y) "error" = some none := fun y =>
    getF_init_record y mem_GC_error (by decide) (by decide)
  rw [dispatch_parse]
  rcases hyr with hy | hy | hy
  · rw [hy, if_pos rfl, parse_2023,
      getF_applyAssigns_ne (fun p hp hpk => herr23 (by rw [← hpk]; exact h23 p hp)),
      getF_dictSet_ne _ _ (by decide), getF_dictSet_ne _ _ (by decide),
      getF_dictSet_ne _ _ (by decide), gpre]
  · rw [hy, if_neg (by decide), if_pos rfl, parse_2024,
      getF_applyAssigns_ne (fun p hp hpk => herr24 (by rw [← hpk]; exact h24 p hp)),
      getF_dictSet_ne _ _ (by decide), getF_dictSet_ne _ _ (by decide),
      getF_dictSet_ne _ _ (by decide), gpre]
  · rw [hy, if_neg (by decide), if_neg (by decide), if_pos rfl, parse_2025,
      getF_applyAssigns_ne (fun p hp hpk => herr25 (by rw [← hpk]; exact h25 p hp)),
      getF_dictSet_ne _ _ (by decide), getF_dictSet_ne _ _ (by decide), gpre]

/-- Witness for C5 (amended): a 2024 snapshot whose extractor raised after
one assignment still yields a record with `error = None`. -/
theorem c5_amended_witness :
    getF (dispatch_parse ⟨[], false⟩ ⟨[("name", some "Tool")], true⟩
      ⟨[], false⟩ "x/web/20240101000000/y") "error" = some none :=
  c5_amended ⟨[], false⟩ ⟨[("name", some "Tool")], true⟩ ⟨[], false⟩
    "x/web/20240101000000/y" (by decide) (by decide) (by decide)
    (Or.inr (Or.inl (by decide)))

/-- C9 (counterexample): for a snapshot of year 2022 — no registered parser —
`dispatch_parse` sets `error` to `"unsupported year 2022"`, not to the
string `"unsupported schema"` the claim states. -/
theorem c9_counterexample :
    getF (dispatch_parse ⟨[], false⟩ ⟨[], false⟩ ⟨[], false⟩
      "x/web/20220101000000/y") "error" =
      some (some "unsupported year 2022") ∧
    "unsupported year 2022" ≠ "unsupported schema" := by
  constructor <;> decide

/-- C9 (amended): a snapshot url whose derived year matches no registered
parser (2023/2024/2025) yields a record whose `error` field is the string
`"unsupported year "` followed by Python's `str` of the year tag (the year
digits, or `"None"` when the url carries no `/web/<14 digits>/` timestamp). -/
theorem c9_amended (b23 b24 b25 : ParseTry) (url : String)
    (hne : (extract_year_ts url).1 ≠ some "2023")
    (hne' : (extract_year_ts url).1 ≠ some "2024")
    (hne'' : (extract_year_ts url).1 ≠ some "2025") :
    getF (dispatch_parse b23 b24 b25 url) "error" =
      some (some ("unsupported year " ++ strOfLast (extract_year_ts url).1)) := by
  rw [dispatch_parse, if_neg hne, if_neg hne', if_neg hne'',
    getF_dictSet_self]

/-- Witness for C9 (amended): year 2022 and a url with no timestamp. -/
theorem c9_amended_witness :
    getF (dispatch_parse ⟨[], false⟩ ⟨[], false⟩ ⟨[], false⟩
      "x/web/20220101000000/y") "error" =
      some (some ("unsupported year " ++
        strOfLast (extract_year_ts "x/web/20220101000000/y").1)) ∧
    getF (dispatch_parse ⟨[], false⟩ ⟨[], false⟩ ⟨[], false⟩
      "no timestamp") "error" =
      some (some ("unsupported year " ++
        strOfLast (extract_year_ts "no timestamp").1)) :=
  ⟨c9_amended ⟨[], false⟩ ⟨[], false⟩ ⟨[], false⟩ "x/web/20220101000000/y"
      (by decide) (by decide) (by decide),
   c9_amended ⟨[], false⟩ ⟨[], false⟩ ⟨[], false⟩ "no timestamp"
      (by decide) (by decide) (by decide)⟩

/-! ## Checkpoint persistence claims -/

theorem empty_append_str (s : String) : "" ++ s = s := by
  apply String.ext
  simp

/-- C4 (counterexample): the source's checkpoint persist is
`json.dump(list(processed), open(CHECKPOINT_FILE, "w"))` — a truncating open
followed by a direct write, with no temporary file and no rename.  Crashing
after the truncate but before the write leaves the checkpoint file holding
`""`, which is neither the old contents `"[]"` nor the new serialized key
set: a corrupt, partially-written checkpoint is visible, and no rename
action occurs anywhere in the persist. -/
theorem c4_counterexample :
    getFs (applyActs [(CHECKPOINT_FILE, "[]")]
      ((persistActions "[\"u\"]").take 1)) CHECKPOINT_FILE = some "" ∧
    ("" : String) ≠ "[]" ∧ ("" : String) ≠ "[\"u\"]" ∧
    ((persistActions "[\"u\"]").all fun a =>
      match a with
      | FsAct.rename _ _ => false
      | _ => true) = true := by
  refine ⟨by decide, by decide, by decide, by decide⟩

/-- C4 (amended): every checkpoint persist opens the checkpoint file itself
in truncating write mode and writes the serialized key set directly into it;
no temporary file is written and no rename occurs, so the commit is not
atomic: a crash between the truncate and the write leaves an empty (corrupt)
checkpoint visible, while a crash-free persist leaves the new contents.  (By
contrast the spec-modelled `atomicPersistActions` shows every crash prefix of
a temp-file-and-rename persist exposing either the old or the new contents.) -/
theorem c4_amended (content old : String) :
    persistActions content =
      [FsAct.openTrunc CHECKPOINT_FILE,
       FsAct.writeAll CHECKPOINT_FILE content] ∧
    (∀ src dst, FsAct.rename src dst ∉ persistActions content) ∧
    getFs (applyActs [(CHECKPOINT_FILE, old)] (persistActions content))
      CHECKPOINT_FILE = some content ∧
    getFs (applyActs [(CHECKPOINT_FILE, old)]
      ((persistActions content).take 1)) CHECKPOINT_FILE = some "" ∧
    (∀ n, getFs (applyActs [(CHECKPOINT_FILE, old)]
        ((atomicPersistActions content).take n)) CHECKPOINT_FILE = some old ∨
      getFs (applyActs [(CHECKPOINT_FILE, old)]
        ((atomicPersistActions content).take n)) CHECKPOINT_FILE =
        some content) := by
  refine ⟨rfl, ?_, ?_, ?_, ?_⟩
  · intro src dst
    simp [persistActions]
  · simp [applyActs, applyAct, setFs, getFs, persistActions,
      CHECKPOINT_FILE, empty_append_str]
  · rfl
  · intro n
    match n with
    | 0 => exact Or.inl rfl
    | 1 =>
      left
      simp [applyActs, applyAct, setFs, getFs, atomicPersistActions,
        CHECKPOINT_FILE]
    | 2 =>
      left
      simp [applyActs, applyAct, setFs, getFs, atomicPersistActions,
        CHECKPOINT_FILE]
    | (n + 3) =>
      right
      rw [List.take_of_length_le (by simp [atomicPersistActions])]
      simp [applyActs, applyAct, setFs, getFs, delFs, atomicPersistActions,
        CHECKPOINT_FILE, empty_append_str]

/-! ## Orchestration claims -/

theorem step_preserves_SysInv {urls : List String} {s s' : Sys} {l : Lab}
    (hstep : step urls s l = some s') (hinv : SysInv s) : SysInv s' := by
  obtain ⟨he, hp, hc⟩ := hinv
  cases l with
  | skipDone =>
    simp only [step] at hstep
    split at hstep
    · exact absurd hstep (by simp)
    · split at hstep
      · exact absurd hstep (by simp)
      · split at hstep
        · injection hstep with h
          subst h
          exact ⟨he, hp, hc⟩
        · exact absurd hstep (by simp)
  | work =>
    simp only [step] at hstep
    split at hstep
    · exact absurd hstep (by simp)
    · next u rest hpend =>
      split at hstep
      · exact absurd hstep (by simp)
      · split at hstep
        · exact absurd hstep (by simp)
        · split at hstep
          · injection hstep with h
            subst h
            refine ⟨fun _ => rfl, ?_, ?_⟩
            · intro k hk
              rcases List.mem_append.mp hk with hk | hk
              · rcases hp k hk with h | h
                · exact Or.inl (List.mem_append.mpr (Or.inl h))
                · exact Or.inl (List.mem_append.mpr (Or.inr
                    (List.mem_append.mpr (Or.inl h))))
              · exact Or.inl (List.mem_append.mpr (Or.inr
                  (List.mem_append.mpr (Or.inr hk))))
            · intro k hk
              exact List.mem_append.mpr (Or.inl (hc k hk))
          · injection hstep with h
            subst h
            refine ⟨fun h => by simp at h, ?_, hc⟩
            intro k hk
            rcases List.mem_append.mp hk with hk | hk
            · rcases hp k hk with h | h
              · exact Or.inl h
              · exact Or.inr (List.mem_append.mpr (Or.inl h))
            · exact Or.inr (List.mem_append.mpr (Or.inr hk))
  | ckptDump =>
    simp only [step] at hstep
    split at hstep
    · next hmid =>
      injection hstep with h
      subst h
      refine ⟨fun h => by simp at h, hp, ?_⟩
      intro k hk
      refine (hp k hk).resolve_right fun hb => ?_
      rw [he hmid] at hb
      cases hb
    · exact absurd hstep (by simp)
  | finalCsv =>
    simp only [step] at hstep
    split at hstep
    · next hcond =>
      obtain ⟨hpend, hmid, hbuf⟩ := hcond
      injection hstep with h
      subst h
      refine ⟨fun _ => rfl, ?_, ?_⟩
      · intro k hk
        rcases hp k hk with h | h
        · exact Or.inl (List.mem_append.mpr (Or.inl h))
        · exact Or.inl (List.mem_append.mpr (Or.inr h))
      · intro k hk
        exact List.mem_append.mpr (Or.inl (hc k hk))
    · exact absurd hstep (by simp)
  | finalDump =>
    simp only [step] at hstep
    split at hstep
    · next hcond =>
      obtain ⟨hpend, hmid, hbuf⟩ := hcond
      injection hstep with h
      subst h
      refine ⟨he, hp, ?_⟩
      intro k hk
      refine (hp k hk).resolve_right fun hb => ?_
      rw [hbuf] at hb
      cases hb
    · exact absurd hstep (by simp)
  | crash =>
    simp only [step] at hstep
    injection hstep with h
    subst h
    exact ⟨fun _ => rfl, fun k hk => Or.inl (hc k hk), hc⟩

theorem execs_preserves_SysInv {urls : List String} :
    ∀ {sched : List Lab} {s s' : Sys},
      execs urls s sched = some s' → SysInv s → SysInv s' := by
  intro sched
  induction sched with
  | nil =>
    intro s s' h hs
    rw [execs] at h
    injection h with h
    subst h
    exact hs
  | cons l ls ih =>
    intro s s' h hs
    rw [execs] at h
    cases hstep : step urls s l with
    | none => rw [hstep] at h; exact absurd h (by simp)
    | some s1 =>
      rw [hstep] at h
      exact ih h (step_preserves_SysInv hstep hs)

/-- C3 (confirmed): the table write of a flush always precedes the matching
checkpoint dump (worker lines 2144-2151 and the terminal flush of `main`),
so in every reachable durable state — across any schedule of worker steps,
flushes and crash/restarts — every key in the persisted checkpoint has its
record row in the durable output table; a crash can only lose the one
unflushed buffer, never produce a checkpointed-but-unrecorded key. -/
theorem c3_data_before_checkpoint (urls : List String) (sched : List Lab)
    (s : Sys) (hrun : execs urls (initSys urls) sched = some s) :
    ∀ k ∈ s.disk_ckpt, k ∈ s.disk_csv := by
  have h0 : SysInv (initSys urls) :=
    ⟨fun _ => rfl, by simp [initSys], by simp [initSys]⟩
  exact (execs_preserves_SysInv hrun h0).2.2

/-- Witness for C3: a one-item run whose flush completed and checkpointed. -/
theorem c3_data_before_checkpoint_witness :
    "a" ∈ (Sys.mk [] ["a"] [] false ["a"] ["a"]).disk_csv :=
  c3_data_before_checkpoint ["a"]
    [Lab.work, Lab.finalCsv, Lab.ckptDump, Lab.finalDump]
    (Sys.mk [] ["a"] [] false ["a"] ["a"]) (by decide) "a" (by decide)

theorem nodup_append_singleton {l : List String} {u : String}
    (hnd : l.Nodup) (hu : u ∉ l) : (l ++ [u]).Nodup :=
  List.nodup_append.mpr ⟨hnd, List.nodup_singleton u,
    fun _ ha hb => hu (List.mem_singleton.mp hb ▸ ha)⟩

theorem step_preserves_SysUniq {urls : List String} {s s' : Sys} {l : Lab}
    (hstep : step urls s l = some s')
    (hcr : l = Lab.crash → s.midFlush = false)
    (hu : SysUniq urls s) : SysUniq urls s' := by
  obtain ⟨hinv, hnd, hndp, hndc, hcsvp, hbufp, hd, hf⟩ := hu
  have hinv' := step_preserves_SysInv hstep hinv
  cases l with
  | skipDone =>
    simp only [step] at hstep
    split at hstep
    · exact absurd hstep (by simp)
    · next u rest hpend =>
      split at hstep
      · exact absurd hstep (by simp)
      · split at hstep
        · next humem =>
          injection hstep with h
          subst h
          refine ⟨hinv', hnd, hndp, hndc, hcsvp, hbufp, hd, ?_⟩
          intro w hw
          rcases hf w hw with hwp | hwp
          · rw [hpend] at hwp
            rcases List.mem_cons.mp hwp with rfl | hwp
            · exact Or.inr humem
            · exact Or.inl hwp
          · exact Or.inr hwp
        · exact absurd hstep (by simp)
  | work =>
    simp only [step] at hstep
    split at hstep
    · exact absurd hstep (by simp)
    · next u rest hpend =>
      split at hstep
      · exact absurd hstep (by simp)
      · next hmid =>
        split at hstep
        · exact absurd hstep (by simp)
        · next humem =>
          have hmidf : s.midFlush = false := by
            revert hmid
            cases s.midFlush <;> simp
          have hucsv : u ∉ s.disk_csv := fun h => humem (hcsvp u h)
          have hubuf : u ∉ s.buffer := fun h => humem (hbufp u h)
          have hucb : u ∉ s.disk_csv ++ s.buffer := fun h => by
            rcases List.mem_append.mp h with h | h
            exacts [hucsv h, hubuf h]
          have hnd' : ((s.disk_csv ++ s.buffer) ++ [u]).Nodup :=
            nodup_append_singleton hnd hucb
          have hndp' : (s.processed ++ [u]).Nodup :=
            nodup_append_singleton hndp humem
          have hff : ∀ w ∈ urls, w ∈ rest ∨ w ∈ s.processed ++ [u] := by
            intro w hw
            rcases hf w hw with hwp | hwp
            · rw [hpend] at hwp
              rcases List.mem_cons.mp hwp with rfl | hwp
              · exact Or.inr (List.mem_append.mpr (Or.inr
                  (List.mem_singleton.mpr rfl)))
              · exact Or.inl hwp
            · exact Or.inr (List.mem_append.mpr (Or.inl hwp))
          split at hstep
          · injection hstep with h
            subst h
            refine ⟨hinv', ?_, hndp', hndc, ?_, ?_, ?_, hff⟩
            · rw [List.append_nil, ← List.append_assoc]
              exact hnd'
            · intro k hk
              rcases List.mem_append.mp hk with hk | hk
              · exact List.mem_append.mpr (Or.inl (hcsvp k hk))
              · rcases List.mem_append.mp hk with hk | hk
                · exact List.mem_append.mpr (Or.inl (hbufp k hk))
                · exact List.mem_append.mpr (Or.inr hk)
            · intro k hk
              cases hk
            · intro hmf
              exact absurd hmf (by simp)
          · injection hstep with h
            subst h
            refine ⟨hinv', ?_, hndp', hndc, ?_, ?_, ?_, hff⟩
            · rw [← List.append_assoc]
              exact hnd'
            · intro k hk
              exact List.mem_append.mpr (Or.inl (hcsvp k hk))
            · intro k hk
              rcases List.mem_append.mp hk with hk | hk
              · exact List.mem_append.mpr (Or.inl (hbufp k hk))
              · exact List.mem_append.mpr (Or.inr hk)
            · intro _ k hk
              exact hd hmidf k hk
  | ckptDump =>
    simp only [step] at hstep
    split at hstep
    · injection hstep with h
      subst h
      exact ⟨hinv', hnd, hndp, hndp, hcsvp, hbufp,
        fun _ k hk => hcsvp k hk, hf⟩
    · exact absurd hstep (by simp)
  | finalCsv =>
    simp only [step] at hstep
    split at hstep
    · next hcond =>
      obtain ⟨hpend, hmidf, hbuf⟩ := hcond
      injection hstep with h
      subst h
      refine ⟨hinv', ?_, hndp, hndc, ?_, ?_, ?_, hf⟩
      · rw [List.append_nil]
        exact hnd
      · intro k hk
        rcases List.mem_append.mp hk with hk | hk
        exacts [hcsvp k hk, hbufp k hk]
      · intro k hk
        cases hk
      · intro hmf
        exact absurd hmf (by simp)
    · exact absurd hstep (by simp)
  | finalDump =>
    simp only [step] at hstep
    split at hstep
    · next hcond =>
      obtain ⟨hpend, hmidf, hbuf⟩ := hcond
      injection hstep with h
      subst h
      exact ⟨hinv', hnd, hndp, hndp, hcsvp, hbufp,
        fun _ k hk => hcsvp k hk, hf⟩
    · exact absurd hstep (by simp)
  | crash =>
    simp only [step] at hstep
    injection hstep with h
    subst h
    have hmidf := hcr rfl
    refine ⟨hinv', ?_, hndc, hndc, ?_, ?_, ?_, fun w hw => Or.inl hw⟩
    · rw [List.append_nil]
      exact (List.nodup_append.mp hnd).1
    · intro k hk
      exact hd hmidf k hk
    · intro k hk
      cases hk
    · intro _ k hk
      exact hd hmidf k hk

theorem execs_preserves_SysUniq {urls : List String} :
    ∀ {sched : List Lab} {s s' : Sys},
      execs urls s sched = some s' →
      crashesOutsideFlush urls s sched = true →
      SysUniq urls s → SysUniq urls s' := by
  intro sched
  induction sched with
  | nil =>
    intro s s' h _ hs
    rw [execs] at h
    injection h with h
    subst h
    exact hs
  | cons l ls ih =>
    intro s s' h hsafe hs
    rw [execs] at h
    rw [crashesOutsideFlush] at hsafe
    cases hstep : step urls s l with
    | none => rw [hstep] at h; exact absurd h (by simp)
    | some s1 =>
      rw [hstep] at h
      rw [hstep] at hsafe
      have hsafe' := (Bool.and_eq_true _ _).mp hsafe
      refine ih h hsafe'.2 (step_preserves_SysUniq hstep ?_ hs)
      intro hl
      subst hl
      have h1 := hsafe'.1
      simp at h1
      exact h1.resolve_left (by decide)

/-- C1 (counterexample): with 50 input urls and `SAVE_EVERY = 50`, the
schedule `sched50` — process all 50 (triggering the flush, whose table write
completes), crash before the checkpoint dump, resume (the checkpoint file is
still absent, so `processed` reloads empty), reprocess all 50, flush, dump —
leaves TWO rows for the key `"0"` in the durable output table: the claimed
"exactly one Record row is ever persisted per key across resumed runs" fails
when a crash lands between a flush's table write (line 2149) and its
checkpoint dump (line 2151). -/
theorem c1_counterexample :
    (execs urls50 (initSys urls50) sched50).map
      (fun s => s.disk_csv.count "0") = some 2 ∧
    "0" ∈ urls50 := by
  constructor <;> decide

/-- C1 (amended): provided no crash lands inside a flush — between the
flush's table write and its checkpoint dump (`crashesOutsideFlush`) — the
durable output table never holds more than one row per key, across any
number of crash/restarts; and once the work list is drained and the final
flush has emptied the buffer, it holds exactly one row per input url,
whatever each item's outcome. -/
theorem c1_amended (urls : List String) (sched : List Lab) (s : Sys)
    (hrun : execs urls (initSys urls) sched = some s)
    (hsafe : crashesOutsideFlush urls (initSys urls) sched = true) :
    (∀ k, s.disk_csv.count k ≤ 1) ∧
    (s.pending = [] → s.buffer = [] →
      ∀ u ∈ urls, s.disk_csv.count u = 1) := by
  have h0 : SysUniq urls (initSys urls) := by
    refine ⟨⟨fun _ => rfl, ?_, ?_⟩, ?_, ?_, ?_, ?_, ?_, ?_, ?_⟩ <;>
      simp [initSys]
  have hU := execs_preserves_SysUniq hrun hsafe h0
  obtain ⟨⟨he, hp, hc⟩, hnd, hndp, hndc, hcsvp, hbufp, hd, hf⟩ := hU
  have hndcsv : s.disk_csv.Nodup := (List.nodup_append.mp hnd).1
  constructor
  · intro k
    exact List.nodup_iff_count_le_one.mp hndcsv k
  · intro hpend hbuf u hu
    have hmem : u ∈ s.disk_csv := by
      rcases hf u hu with h | h
      · rw [hpend] at h
        cases h
      · rcases hp u h with h2 | h2
        · exact h2
        · rw [hbuf] at h2
          cases h2
    have h1 := List.nodup_iff_count_le_one.mp hndcsv u
    have h2 : 0 < s.disk_csv.count u := List.count_pos_iff.mpr hmem
    omega

/-- Witness for C1 (amended): a crash-free one-item run ends with exactly one
row for its url. -/
theorem c1_amended_witness :
    (Sys.mk [] ["a"] [] false ["a"] ["a"]).disk_csv.count "a" = 1 :=
  (c1_amended ["a"] [Lab.work, Lab.finalCsv, Lab.ckptDump, Lab.finalDump]
    (Sys.mk [] ["a"] [] false ["a"] ["a"]) (by decide) (by decide)).2 rfl rfl
    "a" (by decide)

/-! ## Rate limiter claims -/

theorem acquire_eq (s : RateLimiter) (now : ℚ) :
    s.acquire now =
      if 1 ≤ min s.capacity (s.tokens + (now - s.last) * (s.capacity / 60))
      then (⟨s.capacity,
        min s.capacity (s.tokens + (now - s.last) * (s.capacity / 60)) - 1,
        now⟩, true)
      else (⟨s.capacity,
        min s.capacity (s.tokens + (now - s.last) * (s.capacity / 60)),
        now⟩, false) := rfl

theorem runAcquires_cons (s : RateLimiter) (t : ℚ) (ts : List ℚ) :
    RateLimiter.runAcquires s (t :: ts) =
      if (s.acquire t).2 then t :: RateLimiter.runAcquires (s.acquire t).1 ts
      else RateLimiter.runAcquires (s.acquire t).1 ts := rfl

theorem countWindow_cons (a b t : ℚ) (l : List ℚ) :
    countWindow a b (t :: l) =
      (if a ≤ t ∧ t ≤ b then 1 else 0) + countWindow a b l := by
  rw [countWindow, countWindow, List.filter_cons]
  by_cases h : a ≤ t ∧ t ≤ b
  · rw [if_pos h]
    have : (decide (a ≤ t) && decide (t ≤ b)) = true := by
      simp [h.1, h.2]
    simp [this]
    omega
  · have : (decide (a ≤ t) && decide (t ≤ b)) = false := by
      rcases not_and_or.mp h with h' | h' <;> simp [h']
    rw [if_neg h]
    simp [this]

theorem runAcquires_cons_succ {s : RateLimiter} {t : ℚ}
    (h : 1 ≤ min s.capacity (s.tokens + (t - s.last) * (s.capacity / 60)))
    (ts : List ℚ) :
    RateLimiter.runAcquires s (t :: ts) =
      t :: RateLimiter.runAcquires
        ⟨s.capacity,
         min s.capacity (s.tokens + (t - s.last) * (s.capacity / 60)) - 1,
         t⟩ ts := by
  rw [runAcquires_cons, acquire_eq, if_pos h]
  rfl

theorem runAcquires_cons_fail {s : RateLimiter} {t : ℚ}
    (h : ¬ 1 ≤ min s.capacity (s.tokens + (t - s.last) * (s.capacity / 60)))
    (ts : List ℚ) :
    RateLimiter.runAcquires s (t :: ts) =
      RateLimiter.runAcquires
        ⟨s.capacity,
         min s.capacity (s.tokens + (t - s.last) * (s.capacity / 60)),
         t⟩ ts := by
  rw [runAcquires_cons, acquire_eq, if_neg h]
  rfl

/-- Core bound on the token bucket: starting from any valid limiter state,
the number of successful acquisitions at times inside `[a, b]` is at most
the tokens available at time `a` plus the refill accrued over the window. -/
theorem runAcquires_window_bound (a b : ℚ) (ts : List ℚ) :
    ∀ (s : RateLimiter),
      0 ≤ s.tokens → s.tokens ≤ s.capacity →
      List.Pairwise (fun x y => x ≤ y) ts → (∀ t ∈ ts, s.last ≤ t) →
      ((countWindow a b (RateLimiter.runAcquires s ts) : ℚ) ≤
        max 0 (min s.capacity
            (s.tokens + (a - s.last) * (s.capacity / 60)) +
          (b - a) * (s.capacity / 60))) := by
  induction ts with
  | nil =>
    intro s h0 hcap _ _
    rw [RateLimiter.runAcquires, show countWindow a b [] = 0 from rfl]
    push_cast
    exact le_max_left 0 _
  | cons t ts ih =>
    intro s h0 hcap hsort hge
    have hcap0 : (0:ℚ) ≤ s.capacity := le_trans h0 hcap
    have hc60 : (0:ℚ) ≤ s.capacity / 60 := by positivity
    have hlt : s.last ≤ t := hge t (List.mem_cons_self t ts)
    have htail : ∀ x ∈ ts, t ≤ x :=
      fun x hx => (List.pairwise_cons.mp hsort).1 x hx
    have hsort' : List.Pairwise (fun x y => x ≤ y) ts :=
      (List.pairwise_cons.mp hsort).2
    have htk_le_cap :
        min s.capacity (s.tokens + (t - s.last) * (s.capacity / 60)) ≤
          s.capacity := min_le_left _ _
    have htk_le :
        min s.capacity (s.tokens + (t - s.last) * (s.capacity / 60)) ≤
          s.tokens + (t - s.last) * (s.capacity / 60) := min_le_right _ _
    have htk0 :
        0 ≤ min s.capacity (s.tokens + (t - s.last) * (s.capacity / 60)) := by
      refine le_min hcap0 ?_
      have : 0 ≤ (t - s.last) * (s.capacity / 60) :=
        mul_nonneg (by linarith) hc60
      linarith
    have hring2 : (t - s.last) * (s.capacity / 60) +
        (a - t) * (s.capacity / 60) = (a - s.last) * (s.capacity / 60) := by
      ring
    by_cases hsucc :
        1 ≤ min s.capacity (s.tokens + (t - s.last) * (s.capacity / 60))
    · rw [runAcquires_cons_succ hsucc, countWindow_cons]
      push_cast
      have hIH := ih
        ⟨s.capacity,
         min s.capacity (s.tokens + (t - s.last) * (s.capacity / 60)) - 1,
         t⟩ (by dsimp; linarith) (by dsimp; linarith) hsort'
        (by dsimp; exact htail)
      dsimp at hIH
      by_cases hw : a ≤ t ∧ t ≤ b
      · rw [if_pos hw]
        have hA : min s.capacity
              ((min s.capacity (s.tokens + (t - s.last) * (s.capacity / 60)) - 1) +
                (a - t) * (s.capacity / 60)) ≤
            min s.capacity (s.tokens + (a - s.last) * (s.capacity / 60)) - 1 := by
          rw [show min s.capacity (s.tokens + (a - s.last) * (s.capacity / 60)) - 1 =
            min (s.capacity - 1)
              (s.tokens + (a - s.last) * (s.capacity / 60) - 1) from
            (min_sub_sub_right _ _ _).symm]
          refine le_min ?_ ?_
          · have h5 : (a - t) * (s.capacity / 60) ≤ 0 :=
              mul_nonpos_of_nonpos_of_nonneg (by linarith [hw.1]) hc60
            calc min s.capacity _ ≤ _ := min_le_right _ _
              _ ≤ s.capacity - 1 := by linarith [htk_le_cap]
          · calc min s.capacity _ ≤ _ := min_le_right _ _
              _ ≤ s.tokens + (a - s.last) * (s.capacity / 60) - 1 := by
                linarith [htk_le, hring2]
        have hB : (1:ℚ) ≤
            min s.capacity (s.tokens + (a - s.last) * (s.capacity / 60)) +
              (b - a) * (s.capacity / 60) := by
          have h3 : 0 ≤ (t - a) * (s.capacity / 60) :=
            mul_nonneg (by linarith [hw.1]) hc60
          have h4 : (t - a) * (s.capacity / 60) ≤
              (b - a) * (s.capacity / 60) :=
            mul_le_mul_of_nonneg_right (by linarith [hw.2]) hc60
          have hr : (a - s.last) * (s.capacity / 60) +
              (t - a) * (s.capacity / 60) =
              (t - s.last) * (s.capacity / 60) := by
            ring
          rcases min_cases s.capacity
              (s.tokens + (a - s.last) * (s.capacity / 60)) with
            ⟨hmin, hle⟩ | ⟨hmin, hle⟩
          · rw [hmin]
            linarith [htk_le_cap, hsucc]
          · rw [hmin]
            linarith [htk_le, hsucc]
        have hmax1 : max 0 ((min s.capacity
              ((min s.capacity (s.tokens + (t - s.last) * (s.capacity / 60)) - 1) +
                (a - t) * (s.capacity / 60))) +
              (b - a) * (s.capacity / 60)) ≤
            max 0 ((min s.capacity
              (s.tokens + (a - s.last) * (s.capacity / 60)) +
              (b - a) * (s.capacity / 60)) - 1) :=
          max_le_max le_rfl (by linarith)
        have hmax2 : max 0 ((min s.capacity
              (s.tokens + (a - s.last) * (s.capacity / 60)) +
              (b - a) * (s.capacity / 60)) - 1) =
            (min s.capacity (s.tokens + (a - s.last) * (s.capacity / 60)) +
              (b - a) * (s.capacity / 60)) - 1 :=
          max_eq_right (by linarith)
        have hfin : min s.capacity
              (s.tokens + (a - s.last) * (s.capacity / 60)) +
              (b - a) * (s.capacity / 60) ≤
            max 0 (min s.capacity
              (s.tokens + (a - s.last) * (s.capacity / 60)) +
              (b - a) * (s.capacity / 60)) := le_max_right _ _
        linarith [hIH]
      · rw [if_neg hw]
        have hA : min s.capacity
              ((min s.capacity (s.tokens + (t - s.last) * (s.capacity / 60)) - 1) +
                (a - t) * (s.capacity / 60)) ≤
            min s.capacity (s.tokens + (a - s.last) * (s.capacity / 60)) := by
          refine le_min (min_le_left _ _) ?_
          calc min s.capacity _ ≤ _ := min_le_right _ _
            _ ≤ s.tokens + (a - s.last) * (s.capacity / 60) := by
              linarith [htk_le, hring2]
        have hmax1 : max 0 ((min s.capacity
              ((min s.capacity (s.tokens + (t - s.last) * (s.capacity / 60)) - 1) +
                (a - t) * (s.capacity / 60))) +
              (b - a) * (s.capacity / 60)) ≤
            max 0 (min s.capacity
              (s.tokens + (a - s.last) * (s.capacity / 60)) +
              (b - a) * (s.capacity / 60)) :=
          max_le_max le_rfl (by linarith)
        linarith [hIH]
    · rw [runAcquires_cons_fail hsucc]
      have hIH := ih
        ⟨s.capacity,
         min s.capacity (s.tokens + (t - s.last) * (s.capacity / 60)),
         t⟩ (by dsimp; linarith) (by dsimp; linarith) hsort'
        (by dsimp; exact htail)
      dsimp at hIH
      have hA : min s.capacity
            ((min s.capacity (s.tokens + (t - s.last) * (s.capacity / 60))) +
              (a - t) * (s.capacity / 60)) ≤
          min s.capacity (s.tokens + (a - s.last) * (s.capacity / 60)) := by
        refine le_min (min_le_left _ _) ?_
        calc min s.capacity _ ≤ _ := min_le_right _ _
          _ ≤ s.tokens + (a - s.last) * (s.capacity / 60) := by
            linarith [htk_le, hring2]
      have hmax1 : max 0 ((min s.capacity
            ((min s.capacity (s.tokens + (t - s.last) * (s.capacity / 60))) +
              (a - t) * (s.capacity / 60))) +
            (b - a) * (s.capacity / 60)) ≤
          max 0 (min s.capacity
            (s.tokens + (a - s.last) * (s.capacity / 60)) +
            (b - a) * (s.capacity / 60)) :=
        max_le_max le_rfl (by linarith)
      linarith [hIH]

/-- C2 (counterexample): a `RateLimiter` built with `rpm = 2` starts with a
full bucket of 2 tokens; two acquisitions at time 0 drain it and the
continuous refill (2 tokens per 60 s) lets a third acquisition succeed at
time 30 — three successful acquisitions inside the 30-second window
`[0, 30]`, which sits inside a rolling 60-second window, exceeding
`capacity = 2`. -/
theorem c2_counterexample :
    countWindow 0 30 (RateLimiter.runAcquires ⟨2, 2, 0⟩ [0, 0, 30]) = 3 ∧
    (30:ℚ) - 0 ≤ 60 ∧ (2:ℚ) < 3 := by
  refine ⟨?_, by norm_num, by norm_num⟩
  norm_num [RateLimiter.runAcquires, RateLimiter.acquire, countWindow,
    List.filter]

/-- C2 (amended): because the bucket is created full (`tokens = capacity`)
and refills at `capacity / 60` tokens per second, the correct guarantee is
twice the claimed one: for every call pattern (any number of callers, any
nondecreasing sequence of attempt times), at most `2 * capacity`
acquisitions succeed within any window of at most 60 seconds.  The claimed
bound `capacity` is exceeded (see the counterexample), but the rate is
bounded: a burst can spend at most the `capacity` tokens present at the
window's start on top of the at-most-`capacity` refill accrued during it. -/
theorem c2_amended (rpm t0 a b : ℚ) (ts : List ℚ)
    (hrpm : 0 < rpm) (hwin : b - a ≤ 60)
    (hsort : List.Pairwise (fun x y => x ≤ y) ts)
    (hge : ∀ t ∈ ts, t0 ≤ t) :
    ((countWindow a b (RateLimiter.runAcquires ⟨rpm, rpm, t0⟩ ts) : ℚ)) ≤
      2 * rpm := by
  have h := runAcquires_window_bound a b ts ⟨rpm, rpm, t0⟩
    (le_of_lt hrpm) le_rfl hsort hge
  dsimp at h
  have h1 : min rpm (rpm + (a - t0) * (rpm / 60)) ≤ rpm := min_le_left _ _
  have h2 : (b - a) * (rpm / 60) ≤ rpm := by
    calc (b - a) * (rpm / 60) ≤ 60 * (rpm / 60) :=
      mul_le_mul_of_nonneg_right hwin (by positivity)
      _ = rpm := by ring
  have h3 : max 0 (min rpm (rpm + (a - t0) * (rpm / 60)) +
      (b - a) * (rpm / 60)) ≤ 2 * rpm :=
    max_le (by linarith) (by linarith)
  linarith

/-- Witness for C2 (amended) at the counterexample's call pattern. -/
theorem c2_amended_witness :
    ((countWindow 0 30
      (RateLimiter.runAcquires ⟨2, 2, 0⟩ [0, 0, 30]) : ℚ)) ≤ 2 * 2 :=
  c2_amended 2 0 0 30 [0, 0, 30] (by norm_num) (by norm_num)
    (by norm_num [List.pairwise_cons]) (by norm_num)

end Wayback
